import Mathlib

/-!
Shallow embedding of the halfORM query-construction engine, written from
the repository sources:

* `src/half_orm/relation.py` — the `Relation` methods `_ho_insert`,
  `_ho_get`, `_ho_update`, `_ho_delete`, `_ho_is_set`, `_ho_limit`,
  `__len__`, `_ho_is_empty`, `__set__op__` and the combinators
  `__and__` / `__or__` / `__sub__` / `__neg__`;
* `src/half_orm/relation_errors.py` — `ExpectedOneError`;
* `src/halfORM/field.py` — the `Field` class: `__set__`, `_praf`,
  `where_repr`.

Database interaction is modelled by passing the rows a query would
return (or, for `insert`, the rows the RETURNING clause yields) as an
explicit list; mutation of Python objects is modelled by returning the
post-state of the mutated object explicitly.
-/

set_option autoImplicit false

namespace HalfOrm

/-- Scalar SQL values, as decoded by the driver into Python scalars. -/
inductive Val where
  | int (i : Int)
  | str (s : String)
  | bool (b : Bool)
  deriving DecidableEq, Repr

/-- One result row, as produced by psycopg2's RealDictCursor: a mapping
from column name to the decoded value, where `none` is a SQL NULL
(decoded to Python's None).  Keys are unique (the cursor yields dicts). -/
abbrev Row := List (String × Option Val)

/-! ### Count queries: `__len__` and `_ho_is_empty` (relation.py 752-775)

`__len__` executes `select count(distinct {what}) from ...` and returns
`fetchone()['count']`. `_ho_is_empty` executes the same query with
` limit 1` appended and returns `fetchone()['count'] != 1`.

In PostgreSQL a LIMIT clause applies to the result rows of the query,
after aggregation; an aggregate query without GROUP BY always produces
exactly one result row, so the LIMIT does not cap the counted value.
We model this by computing the aggregate result list (one row holding
the count of distinct matching rows) and then applying the LIMIT to
that result list. -/

/-- Value of `count(distinct {what})` over the rows matching the
relation's constraint, `what` being the whole row (`r«id».*`). -/
def countDistinctRows (rows : List Row) : Nat :=
  rows.dedup.length

/-- PostgreSQL LIMIT: keeps at most `lim` result rows, applied after
aggregation. `none` means the query has no LIMIT clause. -/
def applyLimit {α : Type} (lim : Option Nat) (res : List α) : List α :=
  match lim with
  | some n => res.take n
  | none => res

/-- Result rows of the aggregate query
`select count(distinct {what}) from ...`: a single row holding the
count. -/
def countQueryResult (rows : List Row) : List Nat :=
  [countDistinctRows rows]

/-- Embedding of `Relation.__len__` (relation.py 752-762): runs the
count query (no LIMIT) and reads the `count` column of `fetchone()`. -/
def hoLen (rows : List Row) : Nat :=
  (applyLimit none (countQueryResult rows)).headD 0

/-- Embedding of `Relation._ho_is_empty` (relation.py 764-775): runs the
count query with ` limit 1` appended and returns
`fetchone()['count'] != 1`. -/
def hoIsEmpty (rows : List Row) : Bool :=
  (applyLimit (some 1) (countQueryResult rows)).headD 0 != 1

/-! ### `_ho_insert` (relation.py 169-197)

After executing the INSERT ... RETURNING query, the code runs
`res = [dict(elt) for elt in self.__cursor.fetchall()] or [{}]`
and returns `res[0]`.  We model the rows the RETURNING clause yields as
the input list; the `Except` result records that the code neither
returns None nor raises on an empty result. -/

/-- Embedding of the result handling of `Relation._ho_insert`
(relation.py 196-197): an empty fetchall is replaced by `[{}]` and the
first element is returned. -/
def hoInsert (returnedRows : List Row) : Except String Row :=
  match returnedRows with
  | [] => .ok []
  | row :: _ => .ok row

/-! ### Select modifiers: `_ho_limit` (relation.py 734-740)

`__select_params` is a plain dict holding the recognized keys
`distinct`, `order_by`, `limit`, `offset`; we model it as a structure of
optional entries (absent key = `none`). -/

/-- State of `Relation.__select_params`. -/
structure SelectParams where
  distinct : Option String := none
  orderBy : Option String := none
  limit : Option Int := none
  offset : Option Int := none
  deriving DecidableEq, Repr

/-- Python truthiness of the `_limit_` argument of `_ho_limit`: an int
is truthy iff non-zero, None is falsy. -/
def intTruthy : Option Int → Bool
  | some n => n != 0
  | none => false

/-- Embedding of `Relation._ho_limit` (relation.py 734-740): a truthy
argument stores it under the `limit` key; otherwise the `limit` key is
removed if present.  The Python method returns `self`; we return the
receiver's post-state. -/
def hoLimit (p : SelectParams) (l : Option Int) : SelectParams :=
  if intTruthy l then { p with limit := l }
  else { p with limit := none }

/-! ### The Field class of src/halfORM/field.py

The claims about field assignment and predicate rendering cite
`src/halfORM/field.py`; the definitions below embed that file.

Field state (`__init__`, field.py 14-20): `__value = None`,
`__comp = '='`, `__unaccent = False`, and the `_is_set` flag (inherited
from `FKeyInterface`, initially unset). -/

/-- Possible contents of `Field.__value` in src/halfORM/field.py:
Python's None (the initial state, and the state reachable through a
`(None, comp)` pair), the NULL sentinel from `halfORM.null`, a scalar,
or a sequence (a Python list of scalars; a tuple argument is always
consumed as a `(value, comp)` pair by `__set__`). -/
inductive OVal where
  | pynone
  | null
  | scalar (v : Val)
  | seq (vs : List Val)
  deriving DecidableEq, Repr

/-- State of a `halfORM.field.Field`: column name, SQL type from the
metadata (`__metadata['fieldtype']`), current value, comparator,
set flag and unaccent flag. -/
structure OField where
  name : String
  typ : String
  value : OVal := .pynone
  comp : String := "="
  isSet : Bool := false
  unaccent : Bool := false
  deriving DecidableEq, Repr

/-- Argument of `Field.__set__` (field.py 68): either a plain value or
a 2-tuple.  In src/halfORM/field.py the tuple is unpacked as
`value, comp = value`, i.e. the value comes first and the comparator
second.  Assignment of another Field (the implicit-join branch,
`is_field`) is outside this model; none of the claims exercises it. -/
inductive SetArg where
  | direct (v : OVal)
  | pair (v : OVal) (comp : String)
  deriving DecidableEq, Repr

/-- Message of the failed `assert comp == 'is' or comp == 'is not'`
(field.py 82). -/
def nullCompAssertMsg : String :=
  "AssertionError: comp should be is or is not with NULL"

/-- Embedding of `Field.__set__` (src/halfORM/field.py 68-96), branch by
branch:
* `value is None` → `return` — the field is left exactly as it was;
* a 2-tuple is unpacked into `(value, comp)`;
* `value is NULL and comp is None` → `comp = 'is'`;
* `value is NULL` → `assert comp == 'is' or comp == 'is not'`
  (an AssertionError, modelled as the `.error` case);
* otherwise a missing comparator defaults to `'='`;
* finally `_is_set = True`, `__value = value`, `__comp = comp`.
No other validation is performed: any comparator string is stored as
given, including for the pathological `(None, comp)` pair. -/
def fieldSet (f : OField) (arg : SetArg) : Except String OField :=
  match arg with
  | .direct .pynone => .ok f
  | .direct .null => .ok { f with value := .null, comp := "is", isSet := true }
  | .direct v => .ok { f with value := v, comp := "=", isSet := true }
  | .pair .null comp =>
      if comp = "is" || comp = "is not" then
        .ok { f with value := .null, comp := comp, isSet := true }
      else
        .error nullCompAssertMsg
  | .pair v comp => .ok { f with value := v, comp := comp, isSet := true }

/-- Embedding of `Field._praf` (field.py 36-43): on a select query the
column is qualified with the relation alias `r«id»`, otherwise the bare
name is double-quoted. -/
def praf (f : OField) (query : String) (id_ : Nat) : String :=
  if query == "select" then "r" ++ toString id_ ++ "." ++ f.name
  else "\"" ++ f.name ++ "\""

/-- Whether `Field.__value` is a Python sequence
(`isinstance(self.__value, (list, tuple))`, field.py 48). -/
def isSeqVal : OVal → Bool
  | .seq _ => true
  | _ => false

/-- Whether the SQL type is an array type: `self.type_[0] == '_'`
(field.py 49, negated there).  PostgreSQL array types are catalogued
with a leading underscore; the fieldtype string is never empty. -/
def isArrayType (typ : String) : Bool :=
  typ.data.head? == some '_'

/-- Embedding of `Field.where_repr` (src/halfORM/field.py 45-57): the
parameter placeholder is `any(%s)` whenever the stored value is a
sequence and the column type is not an array type (`type_[0] != '_'`),
irrespective of the comparator; otherwise it is `%s`.  With
`unaccent`, both sides are wrapped in `unaccent(...)`. -/
def whereRepr (f : OField) (query : String) (id_ : Nat) : String :=
  let compStr := if isSeqVal f.value && !(isArrayType f.typ) then "any(%s)" else "%s"
  if !f.unaccent then
    praf f query id_ ++ " " ++ f.comp ++ " " ++ compStr
  else
    "unaccent(" ++ praf f query id_ ++ ") " ++ f.comp ++ " unaccent(" ++ compStr ++ ")"

/-- Transcribed from the spec, for comparison with the code: the closed
comparator set of spec sections 3 and 4.1
(`{=, !=, <, <=, >, >=, like, ilike, @@, %, is, is not, in, any}`). -/
def specClosedComparators : List String :=
  ["=", "!=", "<", "<=", ">", ">=", "like", "ilike", "@@", "%",
   "is", "is not", "in", "any"]

/-! ### The Relation object model (src/half_orm/relation.py)

A `Rel` value models the query-relevant state of one Relation instance:
its class (`cls`), its Python object identity (`rid`, standing for
`id(self)`), the per-column constraints (`fields`: column name to an
optional comparator/value pair, `none` meaning the field is not set),
the `_ho_join_to` dict (FK identity to joined Relation), the
`_SetOperators` node (`opLeft`/`op`/`opRight`; `opLeft = none` stands
for the constructor state in which `left` is the relation itself), the
`__neg` flag, `__id_cast` and `_ho_is_singleton`.

Python objects form arbitrary graphs; this tree model represents the
acyclic configurations, which are the ones the public combinators
build (spec section 3, invariant 5: the set-operator tree is acyclic). -/

/-- Constraint carried by a set field: the comparator and the value,
as stored by `Field._set` / read back by `__to_dict_val_comp`. -/
structure FieldC where
  comp : String
  value : Val
  deriving DecidableEq, Repr

/-- Query-relevant state of a Relation instance. -/
inductive Rel where
  | mk (cls : String) (rid : Nat)
       (fields : List (String × Option FieldC))
       (joinTo : List (Nat × Rel))
       (opLeft : Option Rel) (op : Option String) (opRight : Option Rel)
       (neg : Bool) (idCast : Option Nat) (isSingleton : Bool)

/-- Class name of the relation (`self.__class__.__name__`). -/
def Rel.cls : Rel → String
  | .mk c _ _ _ _ _ _ _ _ _ => c

/-- Python object identity of the relation (`id(self)`). -/
def Rel.rid : Rel → Nat
  | .mk _ i _ _ _ _ _ _ _ _ => i

/-- Field constraints of the relation (`_ho_fields`, keeping only the
comparator/value pair of each set field). -/
def Rel.fields : Rel → List (String × Option FieldC)
  | .mk _ _ f _ _ _ _ _ _ _ => f

/-- The `_ho_join_to` dict: FK identity to joined relation. -/
def Rel.joinTo : Rel → List (Nat × Rel)
  | .mk _ _ _ j _ _ _ _ _ _ => j

/-- The `left` slot of the `_SetOperators` node; `none` stands for the
constructor state `left = self`. -/
def Rel.opLeft : Rel → Option Rel
  | .mk _ _ _ _ l _ _ _ _ _ => l

/-- The `operator` slot of the `_SetOperators` node. -/
def Rel.op : Rel → Option String
  | .mk _ _ _ _ _ o _ _ _ _ => o

/-- The `right` slot of the `_SetOperators` node. -/
def Rel.opRight : Rel → Option Rel
  | .mk _ _ _ _ _ _ r _ _ _ => r

/-- The `__neg` flag. -/
def Rel.neg : Rel → Bool
  | .mk _ _ _ _ _ _ _ n _ _ => n

/-- The `__id_cast` attribute. -/
def Rel.idCast : Rel → Option Nat
  | .mk _ _ _ _ _ _ _ _ c _ => c

/-- The `_ho_is_singleton` flag. -/
def Rel.isSingleton : Rel → Bool
  | .mk _ _ _ _ _ _ _ _ _ s => s

/-- Replaces the `_ho_join_to` dict of a relation. -/
def Rel.withJoinTo : Rel → List (Nat × Rel) → Rel
  | .mk c i f _ l o r n ic s, j => .mk c i f j l o r n ic s

/-- Replaces the `__neg` flag of a relation. -/
def Rel.withNeg : Rel → Bool → Rel
  | .mk c i f j l o r _ ic s, n => .mk c i f j l o r n ic s

/-- Replaces the `_ho_is_singleton` flag of a relation. -/
def Rel.withSingleton : Rel → Bool → Rel
  | .mk c i f j l o r n ic _, s => .mk c i f j l o r n ic s

mutual
/-- Embedding of `Relation._ho_is_set` (relation.py 571-580): true iff
some relation in `_ho_join_to` is itself set, or the set-operators node
carries an operator, or the `__neg` flag is set, or at least one field
is set. -/
def hoIsSet : Rel → Bool
  | .mk _ _ fields joinTo _ op _ neg _ _ =>
      hoIsSetJoins joinTo || op.isSome || neg
        || fields.any (fun f => f.2.isSome)

/-- The `joined_to |= jt_._ho_is_set()` loop of `_ho_is_set` over the
`_ho_join_to` entries. -/
def hoIsSetJoins : List (Nat × Rel) → Bool
  | [] => false
  | (_, r) :: rest => hoIsSet r || hoIsSetJoins rest
end

/-! ### `_ho_update` and `_ho_delete` (relation.py 271-325)

Both start with the safety gate
`if not (self._ho_is_set() or update_all): raise RuntimeError(...)`.
`_ho_update` then drops the None-valued entries of `kwargs` and, if
nothing remains, returns None without touching the cursor; otherwise it
executes one UPDATE statement whose SET clause holds exactly the
remaining entries.  The `Except` layer models the raised RuntimeError;
the `Option UpdateCall` result models "what SQL was executed": `none`
means no statement was sent. -/

/-- Message of the RuntimeError raised by `_ho_update`
(relation.py 278-280). -/
def updateSafetyMsg (cls : String) : String :=
  "Attempt to update all rows of " ++ cls
    ++ " without update_all being set to True!"

/-- Message of the RuntimeError raised by `_ho_delete`
(relation.py 308-310). -/
def deleteSafetyMsg (cls : String) : String :=
  "Attempt to delete all rows from " ++ cls
    ++ " without delete_all being set to True!"

/-- The UPDATE statement actually executed: the columns of its SET
clause (in `kwargs` order, None-valued entries removed) and the bound
values. -/
structure UpdateCall where
  setCols : List String
  setVals : List Val
  deriving DecidableEq, Repr

/-- Embedding of `Relation._ho_update` (relation.py 271-300): safety
gate, removal of None values from `kwargs`, then either the no-op
return None or one executed UPDATE over the remaining entries. -/
def hoUpdate (r : Rel) (updateAll : Bool) (vals : List (String × Option Val)) :
    Except String (Option UpdateCall) :=
  if !(hoIsSet r || updateAll) then .error (updateSafetyMsg r.cls)
  else
    let updateArgs := vals.filter (fun p => p.2.isSome)
    if updateArgs.isEmpty then .ok none
    else .ok (some ⟨updateArgs.map Prod.fst, updateArgs.filterMap Prod.snd⟩)

/-- Embedding of the safety gate of `Relation._ho_delete`
(relation.py 303-310); the subsequent DELETE execution is not needed by
the claims and is collapsed to `.ok ()`. -/
def hoDelete (r : Rel) (deleteAll : Bool) : Except String Unit :=
  if !(hoIsSet r || deleteAll) then .error (deleteSafetyMsg r.cls)
  else .ok ()

/-! ### `_ho_get` (relation.py 222-255) and `ExpectedOneError`
(relation_errors.py 3-8)

`_ho_get` runs `len(self)` (the count query), raises
`ExpectedOneError(self, count)` when the count differs from 1, and
otherwise builds `self(**next(self._ho_select(*args)))`, i.e. a fresh
instance of the same class whose constructor receives the returned row
as keyword constraints.  Both queries are modelled as reading the same
list of distinct matching rows. -/

/-- Errors surfaced by `_ho_get`: `ExpectedOneError` carrying the
observed count (relation_errors.py 3-8), or the constructor's
`UnknownAttributeError` (relation.py 162-163). -/
inductive GetErr where
  | expectedOne (count : Nat)
  | unknownAttribute
  deriving DecidableEq, Repr

/-- Message built by `ExpectedOneError.__init__`
(relation_errors.py 5-8): `'Expected 1, got {} tuple{}:\n{}'` formatted
with the count, an `'s'` for any count other than 0, and the relation's
repr. -/
def expectedOneMsg (count : Nat) (relationRepr : String) : String :=
  ("Expected 1, got " ++ toString count)
    ++ (" tuple" ++ (if count == 0 then "" else "s") ++ (":\n" ++ relationRepr))

/-- Looks a column up in a row (Python dict access over the unique
keys of a RealDictCursor row). -/
def rowLookup (row : Row) (k : String) : Option (Option Val) :=
  (row.find? (fun p => p.1 == k)).map Prod.snd

/-- Embedding of `Relation.__init__` applied through `__call__`
(relation.py 137-166, 812-813): a fresh instance of the same class with
a fresh object identity, empty `_ho_join_to`, a leaf `_SetOperators`
node, `__neg = False`, no cast and `_ho_is_singleton = False`.  Keyword
names outside the column set raise `UnknownAttributeError`; each
keyword whose value is not None sets the corresponding field (comparator
`'='` for a plain value, per `Field.__set__`), None values are
skipped. -/
def hoCall (r : Rel) (freshRid : Nat) (row : Row) : Except String Rel :=
  if row.all (fun p => r.fields.any (fun f => f.1 == p.1)) then
    .ok (.mk r.cls freshRid
      (r.fields.map (fun f => (f.1,
        match rowLookup row f.1 with
        | some (some v) => some ⟨"=", v⟩
        | _ => none)))
      [] none none none false none false)
  else .error "UnknownAttributeError"

/-- Embedding of `Relation._ho_get` (relation.py 222-255): when the
count of matching rows differs from 1, `ExpectedOneError(self, count)`
is raised; otherwise the first (only) row is fed to the constructor and
the result's `_ho_is_singleton` is set. -/
def hoGet (r : Rel) (freshRid : Nat) (rows : List Row) : Except GetErr Rel :=
  match rows with
  | [row] =>
      match hoCall r freshRid row with
      | .ok ret => .ok (ret.withSingleton true)
      | .error _ => .error .unknownAttribute
  | _ => .error (.expectedOne rows.length)

/-! ### Set-operator combinators (relation.py 924-975)

`__set__op__` builds `new = self(**self.__to_dict_val_comp())` — a
fresh instance of the same class carrying a copy of the left operand's
field constraints — sets `new`'s `_SetOperators` node, and fills
`new._ho_join_to` from `dct_join`.  Crucially,
`dct_join = self._ho_join_to` aliases the left operand's own dict, and
`dct_join.update(right._ho_join_to)` therefore mutates the left operand
in place whenever a right operand is given.  The right operand is only
read.  `hoSetOp` returns the pair (new relation, left operand's
post-state).

The `check_fk` loop replaces entries whose value is the left operand
object itself by `new`; such a self-referential entry is a cyclic
object graph, not representable in this tree model, and the entries are
kept as-is here (no claim exercises them). -/

/-- Python `dict.update` on association lists with unique keys: keys
already present keep their position and receive the new value, new keys
are appended in order. -/
def dictUpdate (d e : List (Nat × Rel)) : List (Nat × Rel) :=
  d.map (fun p =>
    match e.find? (fun q => q.1 == p.1) with
    | some q => (p.1, q.2)
    | none => p)
  ++ e.filter (fun q => d.all (fun p => p.1 != q.1))

/-- Python truthiness of the `operator` argument (`if operator:`,
relation.py 938): None and the empty string are falsy. -/
def opTruthy : Option String → Bool
  | some s => !(s == "")
  | none => false

/-- Embedding of `Relation.__set__op__` (relation.py 924-946).  Returns
`(new, self')` where `self'` is the left operand after the call: its
`_ho_join_to` has been updated in place with the right operand's
entries when a right operand is present, everything else is
untouched. -/
def hoSetOp (self : Rel) (freshRid : Nat) (operator : Option String)
    (right : Option Rel) : Rel × Rel :=
  let dctJoin := match right with
    | some r => dictUpdate self.joinTo r.joinTo
    | none => self.joinTo
  let new : Rel := .mk self.cls freshRid self.fields dctJoin
    (if opTruthy operator then some self else none)
    (if opTruthy operator then operator else none)
    right
    false self.idCast false
  let selfAfter := match right with
    | some _ => self.withJoinTo dctJoin
    | none => self
  (new, selfAfter)

/-- Embedding of `Relation.__and__` (relation.py 948-949). -/
def hoAnd (a b : Rel) (freshRid : Nat) : Rel × Rel :=
  hoSetOp a freshRid (some "and") (some b)

/-- Embedding of `Relation.__or__` (relation.py 954-955). -/
def hoOr (a b : Rel) (freshRid : Nat) : Rel × Rel :=
  hoSetOp a freshRid (some "or") (some b)

/-- Embedding of `Relation.__sub__` (relation.py 960-961). -/
def hoSub (a b : Rel) (freshRid : Nat) : Rel × Rel :=
  hoSetOp a freshRid (some "and not") (some b)

/-- Embedding of `Relation.__neg__` (relation.py 966-969): re-applies
`__set__op__` with the operand's own operator and right child, then
flips the `__neg` flag of the new relation. -/
def hoNeg (a : Rel) (freshRid : Nat) : Rel × Rel :=
  let res := hoSetOp a freshRid a.op a.opRight
  (res.1.withNeg (!a.neg), res.2)

/-! ### Helper lemmas -/

theorem withJoinTo_joinTo (r : Rel) (j : List (Nat × Rel)) :
    (r.withJoinTo j).joinTo = j := by
  cases r; rfl

theorem withJoinTo_cls (r : Rel) (j : List (Nat × Rel)) :
    (r.withJoinTo j).cls = r.cls := by
  cases r; rfl

theorem withSingleton_isSingleton (r : Rel) (s : Bool) :
    (r.withSingleton s).isSingleton = s := by
  cases r; rfl

theorem withSingleton_cls (r : Rel) (s : Bool) :
    (r.withSingleton s).cls = r.cls := by
  cases r; rfl

theorem withSingleton_fields (r : Rel) (s : Bool) :
    (r.withSingleton s).fields = r.fields := by
  cases r; rfl

/-! ### Claim theorems -/

/-- C9: when the INSERT's execution yields no returned row,
`_ho_insert` returns the empty mapping (an `.ok` result, neither None
nor an exception); when rows are returned it returns exactly the first
one. -/
theorem insert_returns_first_row_or_empty_mapping :
    hoInsert [] = .ok ([] : Row) ∧
    ∀ (row : Row) (rest : List Row), hoInsert (row :: rest) = .ok row :=
  ⟨rfl, fun _ _ => rfl⟩

/-- C10: `_ho_limit` with 0 or None removes any previously-set limit
from the select parameters instead of setting LIMIT 0, while a non-zero
argument stores it as the limit; no other select parameter is touched
(the Python method returns the receiver, whose post-state this
computes). -/
theorem limit_modifier_sets_or_removes_limit (p : SelectParams) (l : Option Int)
    (n : Int) (hn : n ≠ 0) :
    hoLimit p (some n) = { p with limit := some n } ∧
    hoLimit p (some 0) = { p with limit := none } ∧
    hoLimit p none = { p with limit := none } ∧
    (hoLimit p l).distinct = p.distinct ∧
    (hoLimit p l).orderBy = p.orderBy ∧
    (hoLimit p l).offset = p.offset := by
  refine ⟨?_, ?_, ?_, ?_, ?_, ?_⟩
  · simp [hoLimit, intTruthy, hn]
  · simp [hoLimit, intTruthy]
  · simp [hoLimit, intTruthy]
  · unfold hoLimit; split <;> rfl
  · unfold hoLimit; split <;> rfl
  · unfold hoLimit; split <;> rfl

/-- Witness for C10's theorem at concrete inputs: setting limit 5 on
empty parameters stores it, and a subsequent call with 0 removes it. -/
theorem limit_modifier_sets_or_removes_limit_witness :
    hoLimit {} (some 5) = { limit := some 5 } ∧
    hoLimit { limit := some 5 } (some 0) = ({} : SelectParams) :=
  ⟨(limit_modifier_sets_or_removes_limit {} none 5 (by decide)).1,
   (limit_modifier_sets_or_removes_limit { limit := some 5 } none 5 (by decide)).2.1⟩

/-- C1 (code bug): evaluated on a constraint matching two distinct
rows, `_ho_is_empty` returns True even though the count is 2, because
the appended ` limit 1` applies after aggregation (the count query
still reports the full count) and the method returns
`count != 1`.  This contradicts both the claim (true iff count is 0)
and the method's own docstring ("Returns True if the relation is
empty, False otherwise"); `__len__` on the same rows reports 2. -/
theorem is_empty_true_on_two_rows :
    hoIsEmpty [[("x", some (.int 1))], [("x", some (.int 2))]] = true ∧
    hoLen [[("x", some (.int 1))], [("x", some (.int 2))]] = 2 := by
  constructor <;> decide

/-- C6 (code bug): `Field.__set__` in src/halfORM/field.py returns
immediately when the assigned value is None
(`if value is None: return`), leaving a previously-set constraint in
place: after assigning None to a field constrained to `'jojo'`, the
field is unchanged and still set.  The claim (and the repository's own
test `test_unset_field_with_none` in src/test/field/misc_test.py)
requires the assignment to unset the constraint. -/
theorem none_assignment_leaves_constraint_in_place :
    fieldSet
        { name := "first_name", typ := "text",
          value := .scalar (.str "jojo"), comp := "=", isSet := true }
        (.direct .pynone)
      = .ok { name := "first_name", typ := "text",
              value := .scalar (.str "jojo"), comp := "=", isSet := true } ∧
    ({ name := "first_name", typ := "text",
       value := .scalar (.str "jojo"), comp := "=", isSet := true } : OField).isSet
      = true :=
  ⟨rfl, rfl⟩

/-- C7 (counterexample): constraining a field with the pair
`(5, '<>')` — a comparator outside the spec's closed set — succeeds
(no InvalidComparator, no error of any kind): `Field.__set__` in
src/halfORM/field.py performs no comparator validation. -/
theorem unknown_comparator_is_accepted :
    specClosedComparators.contains "<>" = false ∧
    fieldSet { name := "x", typ := "int4" } (.pair (.scalar (.int 5)) "<>")
      = .ok { name := "x", typ := "int4", value := .scalar (.int 5),
              comp := "<>", isSet := true } :=
  ⟨by decide, rfl⟩

/-- C7 (amended): `Field.__set__` stores any comparator string
unvalidated when the value is not the NULL sentinel; only the NULL
sentinel enforces a comparator of `'is'` or `'is not'`, and that
failure is an assertion error, not InvalidComparator. -/
theorem comparators_unvalidated_except_null (f : OField) (v : Val) (c : String)
    (hc : c ≠ "is") (hc2 : c ≠ "is not") :
    fieldSet f (.pair (.scalar v) c)
      = .ok { f with value := .scalar v, comp := c, isSet := true } ∧
    fieldSet f (.pair .null c) = .error nullCompAssertMsg := by
  constructor
  · rfl
  · simp [fieldSet, hc, hc2]

/-- Witness for C7's amended theorem: the comparator `'<'` (not an
`'is'` form) is stored as given for a scalar, and rejected by the
assertion for the NULL sentinel. -/
theorem comparators_unvalidated_except_null_witness :
    fieldSet { name := "x", typ := "int4" } (.pair (.scalar (.int 5)) "<")
      = .ok { name := "x", typ := "int4", value := .scalar (.int 5),
              comp := "<", isSet := true } ∧
    fieldSet { name := "x", typ := "int4" } (.pair .null "<")
      = .error nullCompAssertMsg :=
  comparators_unvalidated_except_null { name := "x", typ := "int4" } (.int 5) "<"
    (by decide) (by decide)

/-- C8 (counterexample): a field holding the sequence `[1, 2]` against
the non-array column type `int4` with comparator `'in'` renders as
`r1.x in any(%s)`, not as the claimed `r1.x in (%s)`: `where_repr` in
src/halfORM/field.py uses `any(%s)` for every comparator, with no
tie-break on `'='`. -/
theorem sequence_rendering_has_no_comparator_tiebreak :
    whereRepr { name := "x", typ := "int4", value := .seq [.int 1, .int 2],
                comp := "in", isSet := true } "select" 1
      = "r1.x in any(%s)" ∧
    whereRepr { name := "x", typ := "int4", value := .seq [.int 1, .int 2],
                comp := "in", isSet := true } "select" 1
      ≠ "r1.x in (%s)" := by
  constructor
  · rfl
  · decide

/-- C8 (amended): for a sequence value the rendered fragment is
`«lhs» «comp» any(%s)` for every comparator whenever the column type is
not an array type, with a single `%s` placeholder binding the whole
sequence; for an array-typed column the sequence is not wrapped
(plain `%s`). -/
theorem sequence_rendering_uses_any (name typ typ2 : String) (vs : List Val)
    (comp : String) (id_ : Nat) (harr : isArrayType typ = false)
    (harr2 : isArrayType typ2 = true) :
    whereRepr { name := name, typ := typ, value := .seq vs,
                comp := comp, isSet := true } "select" id_
      = "r" ++ toString id_ ++ "." ++ name ++ " " ++ comp ++ " " ++ "any(%s)" ∧
    whereRepr { name := name, typ := typ2, value := .seq vs,
                comp := comp, isSet := true } "select" id_
      = "r" ++ toString id_ ++ "." ++ name ++ " " ++ comp ++ " " ++ "%s" := by
  constructor
  · simp [whereRepr, praf, isSeqVal, harr]
  · simp [whereRepr, praf, isSeqVal, harr2]

/-- Witness for C8's amended theorem on the `int4` (non-array) and
`_int4` (array) column types. -/
theorem sequence_rendering_uses_any_witness :
    whereRepr { name := "x", typ := "int4", value := .seq [.int 1],
                comp := "=", isSet := true } "select" 2
      = "r" ++ toString 2 ++ "." ++ "x" ++ " " ++ "=" ++ " " ++ "any(%s)" ∧
    whereRepr { name := "x", typ := "_int4", value := .seq [.int 1],
                comp := "=", isSet := true } "select" 2
      = "r" ++ toString 2 ++ "." ++ "x" ++ " " ++ "=" ++ " " ++ "%s" :=
  sequence_rendering_uses_any "x" "int4" "_int4" [.int 1] "=" 2
    (by decide) (by decide)

/-- Concrete relation used to exercise the set-operator combinators: an
unconstrained relation of class Q, not joined to anything. -/
def c5Q : Rel := .mk "Q" 3 [("y", none)] [] none none none false none false

/-- Concrete left operand: one field constrained, empty `_ho_join_to`. -/
def c5A : Rel := .mk "P" 1 [("x", some ⟨"=", .int 1⟩)] [] none none none false none false

/-- Concrete right operand: unconstrained fields, but one
`_ho_join_to` entry (FK identity 7 joined to `c5Q`). -/
def c5B : Rel := .mk "P" 2 [("x", none)] [(7, c5Q)] none none none false none false

/-- C5 (counterexample): `a & b` does not leave the left operand
unmutated: with `a = c5A` (empty `_ho_join_to`) and `b = c5B` (one
entry), the post-state of `a` carries `b`'s `_ho_join_to` entry,
because `__set__op__` runs `dct_join.update(right._ho_join_to)` on
`dct_join = self._ho_join_to`, the left operand's own dict. -/
theorem set_op_mutates_left_operand_join_to :
    (hoAnd c5A c5B 9).2.joinTo = [(7, c5Q)] ∧ c5A.joinTo = [] := by
  constructor
  · rfl
  · rfl

/-- C5 (amended): a binary set-operator combinator builds a new
Relation of the same class with a fresh identity, a copy of the left
operand's field constraints, the set-operator node populated
(`left` = the left operand, the operator, `right` = the right operand),
a cleared negation flag and the left operand's `id_cast`; the right
operand is only read, and the left operand keeps its fields,
set-operator node and flags unchanged — but its `_ho_join_to` dict is
updated in place with the right operand's entries.  (Negation routes
through the same `__set__op__` with the operand's own operator and
right child.) -/
theorem set_op_copies_left_and_updates_its_join_to (a b : Rel) (op : String)
    (freshRid : Nat) (hop : op ≠ "") :
    (hoSetOp a freshRid (some op) (some b)).1
      = Rel.mk a.cls freshRid a.fields (dictUpdate a.joinTo b.joinTo)
          (some a) (some op) (some b) false a.idCast false ∧
    (hoSetOp a freshRid (some op) (some b)).2
      = a.withJoinTo (dictUpdate a.joinTo b.joinTo) := by
  constructor
  · simp [hoSetOp, opTruthy, hop]
  · simp [hoSetOp]

/-- Witness for C5's amended theorem at the concrete operands `c5A`,
`c5B` with the intersection operator. -/
theorem set_op_copies_left_and_updates_its_join_to_witness :
    (hoSetOp c5A 9 (some "and") (some c5B)).1
      = Rel.mk c5A.cls 9 c5A.fields (dictUpdate c5A.joinTo c5B.joinTo)
          (some c5A) (some "and") (some c5B) false c5A.idCast false ∧
    (hoSetOp c5A 9 (some "and") (some c5B)).2
      = c5A.withJoinTo (dictUpdate c5A.joinTo c5B.joinTo) :=
  set_op_copies_left_and_updates_its_join_to c5A c5B "and" 9 (by decide)

/-- C3: on a relation with no field set, no constrained foreign-key
join and no set-operator combination (`_ho_is_set()` false), `update`
and `delete` raise their safety RuntimeError unless called with
`update_all=True` / `delete_all=True`; on a constrained relation no
such error is raised whatever the flags. -/
theorem update_delete_safety_barrier (r : Rel)
    (vals : List (String × Option Val)) (ua da : Bool) :
    (hoIsSet r = false →
       hoUpdate r false vals = .error (updateSafetyMsg r.cls) ∧
       hoDelete r false = .error (deleteSafetyMsg r.cls) ∧
       (∃ res, hoUpdate r true vals = .ok res) ∧
       hoDelete r true = .ok ()) ∧
    (hoIsSet r = true →
       (∃ res, hoUpdate r ua vals = .ok res) ∧
       hoDelete r da = .ok ()) := by
  constructor
  · intro h
    refine ⟨?_, ?_, ?_, ?_⟩
    · simp [hoUpdate, h]
    · simp [hoDelete, h]
    · unfold hoUpdate
      rw [h]
      simp only [Bool.false_or, Bool.not_true, Bool.false_eq_true, if_false]
      split <;> exact ⟨_, rfl⟩
    · simp [hoDelete, h]
  · intro h
    constructor
    · unfold hoUpdate
      rw [h]
      simp only [Bool.true_or, Bool.not_true, Bool.false_eq_true, if_false]
      split <;> exact ⟨_, rfl⟩
    · simp [hoDelete, h]

/-- Witness for C3's theorem: an unconstrained relation (one unset
field, nothing else) hits the safety barrier for both operations, and
a field-constrained relation does not. -/
theorem update_delete_safety_barrier_witness :
    hoUpdate (.mk "Post" 4 [("title", none)] [] none none none false none false)
        false [("title", some (.str "x"))]
      = .error (updateSafetyMsg "Post") ∧
    hoDelete (.mk "Post" 4 [("title", none)] [] none none none false none false)
        false
      = .error (deleteSafetyMsg "Post") ∧
    (∃ res, hoUpdate
        (.mk "Post" 5 [("title", some ⟨"=", .str "x"⟩)] [] none none none false none false)
        false [("title", some (.str "y"))]
      = .ok res) := by
  have h1 := (update_delete_safety_barrier
    (.mk "Post" 4 [("title", none)] [] none none none false none false)
    [("title", some (.str "x"))] false false).1 (by decide)
  have h2 := (update_delete_safety_barrier
    (.mk "Post" 5 [("title", some ⟨"=", .str "x"⟩)] [] none none none false none false)
    [("title", some (.str "y"))] false false).2 (by decide)
  exact ⟨h1.1, h1.2.1, h2.1⟩

/-- C4: in a gated (constrained or `update_all=True`) call to
`_ho_update`, every None-valued entry is removed from the update values
before execution: a SET clause never contains a column whose supplied
value was None, and when every supplied value is None no SQL is
executed and None is returned. -/
theorem update_drops_none_values (r : Rel) (ua : Bool)
    (vals : List (String × Option Val))
    (hgate : hoIsSet r = true ∨ ua = true) :
    ((∀ p ∈ vals, p.2 = none) → hoUpdate r ua vals = .ok none) ∧
    (∀ call, hoUpdate r ua vals = .ok (some call) →
       call.setCols = (vals.filter (fun p => p.2.isSome)).map Prod.fst ∧
       ∀ c ∈ call.setCols, ∃ v, (c, some v) ∈ vals) := by
  have hg : (hoIsSet r || ua) = true := by
    rcases hgate with h | h <;> simp [h]
  constructor
  · intro hall
    have hfilter : vals.filter (fun p => p.2.isSome) = [] := by
      rw [List.filter_eq_nil_iff]
      intro p hp
      simp [hall p hp]
    simp [hoUpdate, hg, hfilter]
  · intro call hcall
    unfold hoUpdate at hcall
    rw [hg] at hcall
    simp only [Bool.not_true, Bool.false_eq_true, if_false] at hcall
    split at hcall
    · exact absurd hcall (by simp)
    · have heq : call
          = ⟨(vals.filter (fun p => p.2.isSome)).map Prod.fst,
             (vals.filter (fun p => p.2.isSome)).filterMap Prod.snd⟩ := by
        injection hcall with h
        injection h with h
        exact h.symm
      subst heq
      refine ⟨rfl, ?_⟩
      intro c hc
      simp only [List.mem_map] at hc
      obtain ⟨p, hp, hpc⟩ := hc
      rw [List.mem_filter] at hp
      obtain ⟨hpv, hps⟩ := hp
      obtain ⟨v, hv⟩ := Option.isSome_iff_exists.mp hps
      refine ⟨v, ?_⟩
      rw [← hpc, ← hv]
      exact hpv

/-- Witness for C4's theorem: on a constrained relation, an update
whose only value is None is a no-op returning None, and a mixed update
keeps exactly the non-None column in its SET clause. -/
theorem update_drops_none_values_witness :
    hoUpdate (.mk "Post" 5 [("title", some ⟨"=", .str "x"⟩)] [] none none none false none false)
        false [("title", none)]
      = .ok none ∧
    ∀ call,
      hoUpdate (.mk "Post" 5 [("title", some ⟨"=", .str "x"⟩)] [] none none none false none false)
          false [("title", some (.str "y")), ("content", none)]
        = .ok (some call) →
      call.setCols = ["title"] := by
  constructor
  · exact (update_drops_none_values
      (.mk "Post" 5 [("title", some ⟨"=", .str "x"⟩)] [] none none none false none false)
      false [("title", none)] (Or.inl (by decide))).1 (by decide)
  · intro call hcall
    have h := (update_drops_none_values
      (.mk "Post" 5 [("title", some ⟨"=", .str "x"⟩)] [] none none none false none false)
      false [("title", some (.str "y")), ("content", none)]
      (Or.inl (by decide))).2 call hcall
    rw [h.1]
    decide

/-- C2: `_ho_get` raises `ExpectedOneError` whenever the count of rows
matching the constraint differs from 1 (0 rows as well as 2 or more),
the error carrying the observed count and its rendered message
containing that count; on a count of exactly 1 it returns a fresh
Relation of the same class whose fields are populated with the returned
row's values (each non-NULL column set with comparator `'='`, NULL
columns left unset per the constructor's None filter) and whose
`_ho_is_singleton` flag is True. -/
theorem get_requires_exactly_one_row (r : Rel) (freshRid : Nat)
    (rows : List Row) :
    (rows.length ≠ 1 →
       hoGet r freshRid rows = .error (.expectedOne rows.length) ∧
       ∀ relationRepr : String, ∃ post,
         expectedOneMsg rows.length relationRepr
           = ("Expected 1, got " ++ toString rows.length) ++ post) ∧
    (∀ row, rows = [row] →
       row.all (fun p => r.fields.any (fun f => f.1 == p.1)) = true →
       ∃ ret, hoGet r freshRid rows = .ok ret ∧
         ret.cls = r.cls ∧
         ret.isSingleton = true ∧
         ret.fields = r.fields.map (fun f => (f.1,
           match rowLookup row f.1 with
           | some (some v) => some ⟨"=", v⟩
           | _ => none))) := by
  constructor
  · intro h
    constructor
    · match rows with
      | [] => rfl
      | [_] => exact absurd rfl h
      | _ :: _ :: _ => rfl
    · intro relationRepr
      exact ⟨_, rfl⟩
  · intro row hrow hkeys
    subst hrow
    refine ⟨(Rel.mk r.cls freshRid (r.fields.map (fun f => (f.1,
        match rowLookup row f.1 with
        | some (some v) => some ⟨"=", v⟩
        | _ => none))) [] none none none false none false).withSingleton true,
      ?_, ?_, ?_, ?_⟩
    · simp only [hoGet, hoCall, hkeys, if_true]
    · exact withSingleton_cls _ _
    · exact withSingleton_isSingleton _ _
    · exact withSingleton_fields _ _

/-- Witness for C2's theorem: on a two-row result `_ho_get` fails with
the observed count 2, and on a one-row result it returns a set,
singleton relation of the same class. -/
theorem get_requires_exactly_one_row_witness :
    hoGet (.mk "Person" 1 [("last_name", none)] [] none none none false none false)
        9 [[("last_name", some (.str "a"))], [("last_name", some (.str "b"))]]
      = .error (.expectedOne 2) ∧
    (∃ post, expectedOneMsg 2 "PERSON"
        = ("Expected 1, got " ++ toString 2) ++ post) ∧
    ∃ ret,
      hoGet (.mk "Person" 1 [("last_name", none)] [] none none none false none false)
          9 [[("last_name", some (.str "a"))]]
        = .ok ret ∧
      ret.cls = "Person" ∧ ret.isSingleton = true ∧
      ret.fields = [("last_name", some ⟨"=", .str "a"⟩)] := by
  have herr := (get_requires_exactly_one_row
    (.mk "Person" 1 [("last_name", none)] [] none none none false none false) 9
    [[("last_name", some (.str "a"))], [("last_name", some (.str "b"))]]).1
    (by decide)
  have hok := (get_requires_exactly_one_row
    (.mk "Person" 1 [("last_name", none)] [] none none none false none false) 9
    [[("last_name", some (.str "a"))]]).2
    [("last_name", some (.str "a"))] rfl (by decide)
  obtain ⟨ret, h1, h2, h3, h4⟩ := hok
  exact ⟨herr.1, herr.2 "PERSON", ret, h1, h2, h3, h4⟩

end HalfOrm
